import Mathlib

/-
  Verification of the DN4 instance-transform pipeline
  (src/dn3/transforms/instance.py, src/dn3/utils.py) against its
  natural-language specification.

  Modelling conventions:
  * Tensors carry exact rational entries.  Float results that can be NaN or
    infinite are represented by the type `FVal`; `fdiv` implements the IEEE
    rules for dividing two finite values (0/0 = NaN, x/0 = ±inf).  All claims
    below only exercise inputs on which binary floating point arithmetic is
    exact (integers and small dyadic values), so conclusions about NaN
    propagation transfer to the float semantics of the source.
  * Randomness is passed in explicitly: each `np.random.*` / `torch.rand*`
    call site receives a stream of draw values as an extra argument, and
    properties are stated over all (or some concrete) streams.
  * Python functions that can raise are embedded with `Except String`;
    the Python value `None` is `Option.none`.
-/

namespace DN4

/-- Model of a floating-point value: NaN, the two infinities, a marker for a
finite value the rational model does not resolve exactly (used only for
irrational square roots, which no claim exercises), or a finite rational. -/
inductive FVal where
  | nan : FVal
  | posinf : FVal
  | neginf : FVal
  | irr : FVal
  | fin : ℚ → FVal
deriving DecidableEq, Repr

/-- IEEE-754 division of two finite values: 0/0 is NaN, x/0 for x ≠ 0 is a
signed infinity, and otherwise the exact quotient. -/
def fdiv (a b : ℚ) : FVal :=
  if b = 0 then
    if a = 0 then .nan else if 0 < a then .posinf else .neginf
  else .fin (a / b)

/-- Exact square root of a nonnegative rational, when it is rational. -/
def ratSqrt (q : ℚ) : Option ℚ :=
  let n := Nat.sqrt q.num.toNat
  let d := Nat.sqrt q.den
  if 0 ≤ q.num ∧ (n : ℤ) * n = q.num ∧ d * d = q.den then some ((n : ℚ) / (d : ℚ))
  else none

/-- Float square root on the rational model: negative arguments give NaN;
irrational results are left abstract (`FVal.irr`), which no claim exercises. -/
def fsqrt (q : ℚ) : FVal :=
  if q < 0 then .nan
  else match ratSqrt q with
    | some r => .fin r
    | none => .irr

/-- A tensor of arbitrary rank: a shape (list of dimension sizes) and an
entry function over index lists (entries outside the shape are junk). -/
structure PyTensor where
  shape : List ℕ
  entry : List ℕ → ℚ

/-- A tensor with float-valued (possibly NaN) entries, as produced by the
normalizing transforms. -/
structure PyTensorF where
  shape : List ℕ
  entry : List ℕ → FVal

/-- All index lists of a given shape, in row-major order. -/
def allIndices : List ℕ → List (List ℕ)
  | [] => [[]]
  | d :: ds => (List.range d).flatMap fun i => (allIndices ds).map fun rest => i :: rest

/-- The list of all in-range entries of a tensor. -/
def PyTensor.entries (x : PyTensor) : List ℚ :=
  (allIndices x.shape).map x.entry

/-- Global minimum of the entries (`x.min()`); seeded with the first entry, so
it is the true minimum whenever the tensor is nonempty (torch errors on empty
tensors, which no claim exercises). -/
def PyTensor.minQ (x : PyTensor) : ℚ :=
  x.entries.foldr min (x.entry (x.shape.map fun _ => 0))

/-- Global maximum of the entries (`x.max()`). -/
def PyTensor.maxQ (x : PyTensor) : ℚ :=
  x.entries.foldr max (x.entry (x.shape.map fun _ => 0))

/-- Minimum over the sub-tensor with leading index `b` (the rank-3 branch of
`min_max_normalize` takes min twice over the last dimension with keepdim,
which is the minimum over the trailing two dimensions, per leading index). -/
def PyTensor.subMinQ (x : PyTensor) (b : ℕ) : ℚ :=
  ((allIndices x.shape.tail).map fun r => x.entry (b :: r)).foldr min
    (x.entry (b :: x.shape.tail.map fun _ => 0))

/-- Maximum over the sub-tensor with leading index `b`. -/
def PyTensor.subMaxQ (x : PyTensor) (b : ℕ) : ℚ :=
  ((allIndices x.shape.tail).map fun r => x.entry (b :: r)).foldr max
    (x.entry (b :: x.shape.tail.map fun _ => 0))

/-- Embedding of `min_max_normalize` from src/dn3/utils.py: rank 2 normalizes
by the global min/max, rank 3 normalizes per leading (batch) index, and any
other rank falls through both branches and returns Python `None`.  The
function takes exactly one parameter in the source. -/
def min_max_normalize (x : PyTensor) : Option PyTensorF :=
  if x.shape.length = 2 then
    some ⟨x.shape, fun idx => fdiv (x.entry idx - x.minQ) (x.maxQ - x.minQ)⟩
  else if x.shape.length = 3 then
    some ⟨x.shape, fun idx =>
      fdiv (x.entry idx - x.subMinQ (idx.headD 0))
           (x.subMaxQ (idx.headD 0) - x.subMinQ (idx.headD 0))⟩
  else none

/-- Number of entries of a tensor (`x.numel()`). -/
def PyTensor.numel (x : PyTensor) : ℕ := x.shape.prod

/-- Sum of all entries. -/
def PyTensor.sumQ (x : PyTensor) : ℚ := x.entries.sum

/-- Mean of all entries (`x.mean()`). -/
def PyTensor.meanQ (x : PyTensor) : ℚ := x.sumQ / (x.numel : ℚ)

/-- Unbiased sample variance, as used by `torch.std()` (Bessel correction,
dividing by `numel - 1`).  Rational division by zero returns 0 here; the
claims only evaluate this on tensors with at least two entries or with zero
variance, where the model agrees with the float semantics. -/
def PyTensor.varQ (x : PyTensor) : ℚ :=
  (x.entries.map fun v => (v - x.meanQ) ^ 2).sum / ((x.numel : ℚ) - 1)

/-- Embedding of `ZScore.__call__` from src/dn3/transforms/instance.py:
`(x - x.mean()) / x.std()`, with `std = sqrt` of the unbiased variance. -/
def zscore (x : PyTensor) : PyTensorF :=
  ⟨x.shape, fun idx =>
    match fsqrt x.varQ with
    | .fin sd => fdiv (x.entry idx - x.meanQ) sd
    | _ => .irr⟩

/-- A rank-2 tensor `[channels, samples]`, the shape every instance transform
receives per the input contract; `entry i k` is row `i`, sample `k` (junk
outside the declared dimensions). -/
structure Mat where
  rows : ℕ
  cols : ℕ
  entry : ℕ → ℕ → ℚ

/-- View a `Mat` as a generic tensor, for the transforms that call the
rank-dispatched helpers on it. -/
def Mat.toPyTensor (x : Mat) : PyTensor :=
  ⟨[x.rows, x.cols], fun idx => x.entry (idx.headD 0) (idx.tail.headD 0)⟩

/-- Global minimum of a matrix (`x.min()`), true minimum for nonempty. -/
def Mat.minQ (x : Mat) : ℚ :=
  ((List.range x.rows).flatMap fun i => (List.range x.cols).map fun k => x.entry i k).foldr
    min (x.entry 0 0)

/-- Global maximum of a matrix (`x.max()`). -/
def Mat.maxQ (x : Mat) : ℚ :=
  ((List.range x.rows).flatMap fun i => (List.range x.cols).map fun k => x.entry i k).foldr
    max (x.entry 0 0)

/-- Python's checking of positional-call arity: calling a function that
declares `nparams` parameters (and no defaults) with `nargs` positional
arguments raises TypeError unless the counts agree. -/
def pyCallArity (nparams nargs : ℕ) (v : α) : Except String α :=
  if nargs = nparams then .ok v else .error "TypeError"

/-- Number of parameters declared by `min_max_normalize` in src/dn3/utils.py:
its signature is `def min_max_normalize(x: torch.Tensor):`. -/
def min_max_normalize_nparams : ℕ := 1

/-- Constructor state of `FixedScale` (src/dn3/transforms/instance.py). -/
structure FixedScale where
  low_bound : ℚ := -1
  high_bound : ℚ := 1

/-- Embedding of `FixedScale.__call__`: the source executes
`min_max_normalize(x, self.low_bound, self.high_bound)` — a call with three
positional arguments to the one-parameter `min_max_normalize`, so Python
raises TypeError before the body of `min_max_normalize` runs. -/
def FixedScale.call (_t : FixedScale) (x : PyTensor) : Except String (Option PyTensorF) :=
  pyCallArity min_max_normalize_nparams 3 (min_max_normalize x)

/-- Constructor state of `TemporalPadding`; the source does not constrain the
sign of the paddings, so they are integers as in Python. -/
structure TemporalPadding where
  start_padding : ℤ
  end_padding : ℤ
  constant_value : ℚ := 0

/-- Embedding of `torch.nn.functional.pad` with `mode='constant'` on a rank-2
input: the pad list must have even length and cover at most `2 * ndim = 4`
entries (otherwise torch raises), pairs pad dimensions from the last one
backwards, and fills new positions with `value`. -/
def torch_pad2 (x : Mat) (pad : List ℤ) (value : ℚ) : Except String Mat :=
  if pad.length % 2 = 1 then .error "Padding length must be divisible by 2"
  else if 2 * 2 < pad.length then .error "Padding length too large"
  else
    let lpad := fun (k : ℕ) => pad.getD (2 * k) 0
    let rpad := fun (k : ℕ) => pad.getD (2 * k + 1) 0
    let newCols : ℤ := (x.cols : ℤ) + lpad 0 + rpad 0
    let newRows : ℤ := (x.rows : ℤ) + lpad 1 + rpad 1
    if newCols < 0 ∨ newRows < 0 then .error "negative dimension"
    else .ok ⟨newRows.toNat, newCols.toNat, fun i k =>
      let oi : ℤ := (i : ℤ) - lpad 1
      let ok : ℤ := (k : ℤ) - lpad 0
      if 0 ≤ oi ∧ oi < (x.rows : ℤ) ∧ 0 ≤ ok ∧ ok < (x.cols : ℤ) then
        x.entry oi.toNat ok.toNat
      else value⟩

/-- Embedding of `TemporalPadding.__call__`: the source builds
`pad = [start_padding, end_padding] + [0 for _ in range(2, x.shape[-1])]`,
so the pad-list length is the sample count `x.shape[-1]` (when it is at
least 2), and hands it to `torch.nn.functional.pad`. -/
def TemporalPadding.call (t : TemporalPadding) (x : Mat) : Except String Mat :=
  torch_pad2 x ([t.start_padding, t.end_padding] ++ List.replicate (x.cols - 2) 0)
    t.constant_value

/-- Embedding of `TemporalPadding.new_sequence_length`. -/
def TemporalPadding.new_sequence_length (t : TemporalPadding) (old : ℤ) : ℤ :=
  old + t.start_padding + t.end_padding

/-- Embedding of `torch.nn.functional.interpolate(mode='nearest')` along the
last dimension of a rank-2 input (the source unsqueezes to rank 3 and
squeezes back): output sample `j` reads input sample `⌊j·cols/t⌋`.  Torch
computes the index through a float scale factor; on the sizes the claims use
this equals the integer formula. -/
def interpolate_nearest (x : Mat) (t : ℕ) : Mat :=
  ⟨x.rows, t, fun c j => x.entry c (j * x.cols / t)⟩

/-- Constructor state of `TemporalInterpolation` (only the default
`mode='nearest'` is modelled; every claim uses it). -/
structure TemporalInterpolation where
  desired_sequence_length : ℕ
  new_sfreq : Option ℚ := none

/-- Embedding of `TemporalInterpolation.__call__` on a rank-2 input. -/
def TemporalInterpolation.call (t : TemporalInterpolation) (x : Mat) : Mat :=
  interpolate_nearest x t.desired_sequence_length

/-- Embedding of `TemporalInterpolation.new_sequence_length`. -/
def TemporalInterpolation.newSeqLen (t : TemporalInterpolation) (_old : ℕ) : ℕ :=
  t.desired_sequence_length

/-- Embedding of `np.random.randint(low, high)`: raises if `high <= low`,
otherwise returns a value in the half-open interval `[low, high)` determined
by the supplied draw; every value of the interval is reached by some draw and
no other value is. -/
def np_randint (low high : ℕ) (draw : ℕ) : Except String ℕ :=
  if high ≤ low then .error "ValueError"
  else .ok (low + draw % (high - low))

/-- Python slice `x[:, :n]` for a nonnegative bound. -/
def Mat.cropCols (x : Mat) (n : ℕ) : Mat :=
  ⟨x.rows, min n x.cols, x.entry⟩

/-- Python slice `x[:, :o]` for an arbitrary integer bound, with Python's
negative-index semantics. -/
def Mat.cropColsZ (x : Mat) (o : ℤ) : Mat :=
  ⟨x.rows, if 0 ≤ o then min o.toNat x.cols else x.cols - (-o).toNat, x.entry⟩

/-- Constructor state of `CropAndUpSample`: `original_sequence_length` is
passed to the `TemporalInterpolation` base as the interpolation target. -/
structure CropAndUpSample where
  original_sequence_length : ℕ
  crop_sequence_min : ℕ

/-- Embedding of `CropAndUpSample.__call__`:
`crop_len = np.random.randint(low=crop_sequence_min, high=x.shape[-1])`, then
the base `TemporalInterpolation.__call__` on `x[:, :crop_len]`. -/
def CropAndUpSample.call (t : CropAndUpSample) (draw : ℕ) (x : Mat) : Except String Mat := do
  let cropLen ← np_randint t.crop_sequence_min x.cols draw
  return interpolate_nearest (x.cropCols cropLen) t.original_sequence_length

/-- Embedding of `CropAndUpSample.new_sequence_length` (identity override). -/
def CropAndUpSample.newSeqLen (_t : CropAndUpSample) (old : ℕ) : ℕ := old

/-- Constructor state of `CropAndResample`; `truncate=None` becomes
`float('inf')`, modelled as `Option.none`. -/
structure CropAndResample where
  desired_sequence_length : ℕ
  stdev : ℚ
  truncate : Option ℚ := none

/-- Fuel-indexed unfolding of `CropAndResample.trunc_norm`'s rejection loop:
`draws` is the stream of successive `int(np.random.normal(mean, std))` values
(when `std > 0` the normal distribution has full support, so every integer
stream is realizable with positive density); the loop accepts the first draw
within `max_diff` of `mean`.  `none` means the source loop is still running
after `fuel` attempts. -/
def trunc_norm_fuel (draws : ℕ → ℤ) (mean : ℤ) (max_diff : ℚ) : ℕ → Option ℤ
  | 0 => none
  | fuel + 1 =>
    if |((draws 0 : ℤ) : ℚ) - (mean : ℚ)| ≤ max_diff then some (draws 0)
    else trunc_norm_fuel (fun k => draws (k + 1)) mean max_diff fuel

/-- The acceptance half-width computed by `CropAndResample.__call__`:
`max_diff = min(x.shape[-1] - self._new_sequence_length, self.truncate)`. -/
def CropAndResample.maxDiff (t : CropAndResample) (cols : ℕ) : ℚ :=
  match t.truncate with
  | none => (cols : ℚ) - (t.desired_sequence_length : ℚ)
  | some tr => min ((cols : ℚ) - (t.desired_sequence_length : ℚ)) tr

/-- Embedding of `CropAndResample.__call__`: assert `max_diff > 0`, draw an
offset by the truncated-normal rejection loop, crop to it and interpolate to
the desired length.  `Except.ok none` models the loop not having accepted a
draw within the given fuel. -/
def CropAndResample.call (t : CropAndResample) (draws : ℕ → ℤ) (fuel : ℕ) (x : Mat) :
    Except String (Option Mat) :=
  let md := t.maxDiff x.cols
  if md ≤ 0 then .error "AssertionError"
  else match trunc_norm_fuel draws (t.desired_sequence_length : ℤ) md fuel with
    | none => .ok none
    | some offset =>
      .ok (some (interpolate_nearest (x.cropColsZ offset) t.desired_sequence_length))

/-- Embedding of `CropAndResample.new_sequence_length`: the source overrides
the base-class method to return the old length unchanged. -/
def CropAndResample.newSeqLen (_t : CropAndResample) (old : ℕ) : ℕ := old

/-- A rank-2 tensor with float-valued entries, as produced by the mapping
transform after in-place normalization. -/
structure MatF where
  rows : ℕ
  cols : ℕ
  entry : ℕ → ℕ → FVal

/-- Modelled from the spec: the canonical-scheme constants `EEG_INDS`,
`EOG_INDS`, `REF_INDS`, `EXTRA_INDS` and `SCALE_IND` are imported by
src/dn3/transforms/instance.py from dn3/transforms/channels.py, which is not
under src/.  The spec fixes only that the canonical scheme is a fixed ordered
sequence of slots partitioned into disjoint category pools (EEG, EOG,
reference, extra) plus a reserved scale-indicator slot outside the pools, so
the scheme is kept abstract here and those invariants appear as hypotheses. -/
structure Deep1010Scheme where
  numSlots : ℕ
  eegInds : List ℕ
  eogInds : List ℕ
  refInds : List ℕ
  extraInds : List ℕ
  scaleInd : ℕ

/-- The spec invariants on the canonical scheme: the four category pools are
pairwise disjoint and the scale-indicator slot belongs to none of them. -/
def Deep1010Scheme.wf (sch : Deep1010Scheme) : Prop :=
  sch.eegInds.Disjoint sch.eogInds ∧ sch.eegInds.Disjoint sch.refInds ∧
  sch.eegInds.Disjoint sch.extraInds ∧ sch.eogInds.Disjoint sch.refInds ∧
  sch.eogInds.Disjoint sch.extraInds ∧ sch.refInds.Disjoint sch.extraInds ∧
  sch.scaleInd ∉ sch.eegInds ∧ sch.scaleInd ∉ sch.eogInds ∧
  sch.scaleInd ∉ sch.refInds ∧ sch.scaleInd ∉ sch.extraInds

/-- Column sum of the channel mapping over the `n` source channels; the source
computes `self.mapping.sum(dim=0)` and `.bool()` of it (nonzero test). -/
def colSum (mapping : ℕ → ℕ → ℚ) (n j : ℕ) : ℚ :=
  ((List.range n).map fun i => mapping i j).sum

/-- Embedding of `(x.transpose(1, 0) @ self.mapping).transpose(1, 0)`:
canonical row `j` at sample `k` is the mapping-weighted sum of the source
rows. -/
def mappedMat (mapping : ℕ → ℕ → ℚ) (numSlots : ℕ) (x : Mat) : Mat :=
  ⟨numSlots, x.cols, fun j k => ((List.range x.rows).map fun i => x.entry i k * mapping i j).sum⟩

/-- Minimum of a matrix over the block of rows listed in `inds` (the source
slices `x[ch_type_inds, :]` — a rank-2 tensor — and `min_max_normalize` takes
its global min); seeded with the block's first entry. -/
def blockMin (x : Mat) (inds : List ℕ) : ℚ :=
  (inds.flatMap fun i => (List.range x.cols).map fun k => x.entry i k).foldr min
    (x.entry (inds.headD 0) 0)

/-- Maximum of a matrix over the block of rows listed in `inds`. -/
def blockMax (x : Mat) (inds : List ℕ) : ℚ :=
  (inds.flatMap fun i => (List.range x.cols).map fun k => x.entry i k).foldr max
    (x.entry (inds.headD 0) 0)

/-- One per-category normalization:
`x[inds, :] = min_max_normalize(x[inds, :])` restricted to the rows of one
category pool. -/
def blockNormEntry (x : Mat) (inds : List ℕ) (j k : ℕ) : FVal :=
  fdiv (x.entry j k - blockMin x inds) (blockMax x inds - blockMin x inds)

/-- Embedding of the per-category normalization loop of
`MappingDeep1010.__call__`
(`for ch_type_inds in (EEG_INDS, EOG_INDS, REF_INDS, EXTRA_INDS): ...`).
Each iteration overwrites only the rows of its own pool and reads only those
same rows, so for disjoint pools (a spec invariant, hypothesis `wf` in the
theorems) the sequential in-place loop equals this functional form. -/
def catNorm (sch : Deep1010Scheme) (x : Mat) : MatF :=
  ⟨x.rows, x.cols, fun j k =>
    if j ∈ sch.eegInds then blockNormEntry x sch.eegInds j k
    else if j ∈ sch.eogInds then blockNormEntry x sch.eogInds j k
    else if j ∈ sch.refInds then blockNormEntry x sch.refInds j k
    else if j ∈ sch.extraInds then blockNormEntry x sch.extraInds j k
    else .fin (x.entry j k)⟩

/-- Embedding of `torch.clamp_max(v, c)` on a float value: NaN propagates,
a too-large value (including +inf) is clamped to `c`. -/
def fclampMax (v : FVal) (c : ℚ) : FVal :=
  match v with
  | .fin q => .fin (min q c)
  | .nan => .nan
  | .posinf => .fin c
  | .neginf => .neginf
  | .irr => .irr

/-- Subtraction of a rational constant from a float value. -/
def fsubQ (v : FVal) (c : ℚ) : FVal :=
  match v with
  | .fin q => .fin (q - c)
  | v => v

/-- Multiplication of a float value by a positive rational constant (the
source only uses the factor 2). -/
def fmulPos (c : ℚ) (v : FVal) : FVal :=
  match v with
  | .fin q => .fin (c * q)
  | v => v

/-- Embedding of the scale computation of `MappingDeep1010.__call__`:
`2 * (torch.clamp_max((x.max() - x.min()) / self.max_scale, 1.0) - 0.5)` when
`self.max_scale` was set from the dataset info, else the constant 0. -/
def mappingScale (max_scale : Option ℚ) (x : Mat) : FVal :=
  match max_scale with
  | none => .fin 0
  | some ms => fmulPos 2 (fsubQ (fclampMax (fdiv (x.maxQ - x.minQ) ms) 1) (1 / 2))

/-- Embedding of `MappingDeep1010.__call__` on a `[channels, samples]` tensor:
compute the scale, apply the mapping, normalize each category pool in place,
zero the rows whose mapping column sums to zero
(`used_channel_mask = self.mapping.sum(dim=0).bool(); x[~used_channel_mask] = 0`),
and finally overwrite the scale-indicator row with the scale (the source
performs the writes in that order, so the scale write wins on its own row). -/
def mappingDeep1010_call (sch : Deep1010Scheme) (mapping : ℕ → ℕ → ℚ)
    (max_scale : Option ℚ) (x : Mat) : MatF :=
  let scale := mappingScale max_scale x
  let y := catNorm sch (mappedMat mapping sch.numSlots x)
  ⟨y.rows, y.cols, fun j k =>
    if j = sch.scaleInd then scale
    else if colSum mapping x.rows j = 0 then .fin 0
    else y.entry j k⟩

/-- Boolean test that a float value is a finite number in `[-1, 1]`. -/
def FVal.memUnit : FVal → Bool
  | .fin q => decide (-1 ≤ q ∧ q ≤ 1)
  | _ => false

/-- Overwrite one row of a matrix with a constant (used for the EOG blanking
`x[which_eog, :] = 0`). -/
def Mat.setRowConst (x : Mat) (r : ℕ) (c : ℚ) : Mat :=
  ⟨x.rows, x.cols, fun i k => if i = r then c else x.entry i k⟩

/-- Constructor state of `AdditiveEogDeep1010`. -/
structure AdditiveEogDeep1010 where
  p : ℚ := 1 / 10
  max_intensity : ℚ := 3 / 10
  blank_eog_p : ℚ := 1

/-- The indices selected once per call by
`affected_inds = (torch.rand(EOG_INDS[0] - 1).lt(self.p)).nonzero()`:
candidate rows `0 .. EOG_INDS[0] - 2`, kept when the uniform draw for that
row is below `p`. -/
def additiveEogAffected (p : ℚ) (firstEog : ℕ) (r1 : ℕ → ℚ) : List ℕ :=
  (List.range (firstEog - 1)).filter fun i => r1 i < p

/-- The per-EOG sub-selection
`this_affected_ids = affected_inds[torch.rand_like(...).lt(0.25)]`: the draw
is positional over the `affected` list. -/
def additiveEogIds (affected : List ℕ) (r2 : ℕ → ℚ) : List ℕ :=
  (affected.enum.filter fun q => r2 q.1 < 1 / 4).map Prod.snd

/-- One iteration of the `for which_eog in EOG_INDS` loop of
`AdditiveEogDeep1010.__call__`: the single vectorized assignment
`x[this_affected_ids, :] = max_intensity * rand_like(ids).unsqueeze(-1) * x[which_eog]`
evaluates its right-hand side (including `x[which_eog]`) before writing, and
gives each selected row its own positional random coefficient `r3`; then the
EOG row itself is blanked when
`blanking_p != 0 and (blanking_p == 1 or torch.rand(1) < blanking_p)`. -/
def additiveEogStep (mi blankP : ℚ) (r2 r3 : ℕ → ℚ) (rb : ℚ) (affected : List ℕ)
    (x : Mat) (eog : ℕ) : Mat :=
  let ids := additiveEogIds affected r2
  let x1 : Mat := ⟨x.rows, x.cols, fun i k =>
    if i ∈ ids then mi * r3 (ids.indexOf i) * x.entry eog k else x.entry i k⟩
  if blankP ≠ 0 ∧ (blankP = 1 ∨ rb < blankP) then x1.setRowConst eog 0 else x1

/-- Embedding of `AdditiveEogDeep1010.__call__`; `eogInds` is the canonical
`EOG_INDS` list (modelled from the spec, channels.py is not under src/), and
`r1`, `r2`, `r3`, `rb` are the explicit streams of the four
`torch.rand` call sites (`r2`/`r3`/`rb` indexed by loop iteration). -/
def AdditiveEogDeep1010.call (t : AdditiveEogDeep1010) (eogInds : List ℕ)
    (r1 : ℕ → ℚ) (r2 r3 : ℕ → ℕ → ℚ) (rb : ℕ → ℚ) (x : Mat) : Mat :=
  let affected := additiveEogAffected t.p (eogInds.headD 0) r1
  (eogInds.enum).foldl
    (fun acc q => additiveEogStep t.max_intensity t.blank_eog_p (r2 q.1) (r3 q.1) (rb q.1)
      affected acc q.2) x

/-- A Python value carried in the per-instance tuple of an
`only_trial_data=False` transform: the trial tensor, a boolean channel mask,
or some other auxiliary value (label, id, ...). -/
inductive PyVal where
  | tensor : Mat → PyVal
  | chmask : ℕ → (ℕ → Bool) → PyVal
  | label : ℤ → PyVal
deriving Nonempty

/-- The value returned by a tuple-contract transform: a single Python value
or a tuple of values. -/
inductive PyRet where
  | single : PyVal → PyRet
  | tuple : List PyVal → PyRet

/-- Constructor state of `NoisyBlankDeep1010`. -/
structure NoisyBlankDeep1010 where
  mask_index : ℕ := 1
  purge_mask : Bool := false

/-- Embedding of `NoisyBlankDeep1010.__call__` on the tuple of per-instance
values: assert the tuple has more than one element, replace the rows of the
trial tensor `x[0]` that the mask at `x[mask_index]` marks unused with uniform
noise in `[-1, 1]` (`2 * torch.rand_like(blanks) - 1`, stream `noise`), then —
when `purge_mask` — rebind `x = x.pop(self.mask_index)`: Python's `list.pop`
returns the removed element, so the popped mask itself is returned rather
than the remaining list. -/
def NoisyBlankDeep1010.call (t : NoisyBlankDeep1010) (noise : ℕ → ℕ → ℚ)
    (x : List PyVal) : Except String PyRet :=
  if x.length ≤ 1 then .error "AssertionError"
  else match x.head?, x.get? t.mask_index with
    | some (.tensor m), some (.chmask _ b) =>
      let m' : Mat := ⟨m.rows, m.cols, fun i k =>
        if b i then m.entry i k else 2 * noise i k - 1⟩
      let x' := x.set 0 (.tensor m')
      if t.purge_mask then
        match x'.get? t.mask_index with
        | some v => .ok (.single v)
        | none => .error "IndexError"
      else .ok (.tuple x')
    | _, _ => .error "TypeError"

/-! Helper lemmas shared by the claim theorems. -/

lemma foldr_min_le_init (l : List ℚ) (s : ℚ) : l.foldr min s ≤ s := by
  induction l with
  | nil => exact le_refl s
  | cons a l ih => exact le_trans (min_le_right a _) ih

lemma init_le_foldr_max (l : List ℚ) (s : ℚ) : s ≤ l.foldr max s := by
  induction l with
  | nil => exact le_refl s
  | cons a l ih => exact le_trans ih (le_max_right a _)

lemma Mat.minQ_le_maxQ (x : Mat) : x.minQ ≤ x.maxQ :=
  le_trans (foldr_min_le_init _ _) (init_le_foldr_max _ _)

lemma fixedScale_call_eq (t : FixedScale) (x : PyTensor) :
    FixedScale.call t x = .error "TypeError" := by
  simp [FixedScale.call, pyCallArity, min_max_normalize_nparams]

/-! Concrete inputs used by the claim theorems and witnesses. -/

/-- The all-ones 2-by-2 tensor: zero dynamic range (`max == min`). -/
def constTens : PyTensor := ⟨[2, 2], fun _ => 1⟩

/-- A concrete rank-2 tensor for the FixedScale theorem. -/
def fsInput : PyTensor := ⟨[2, 2], fun idx => (idx.sum : ℚ)⟩

/-- A concrete rank-1 tensor (shape `[5]`). -/
def rank1Tens : PyTensor := ⟨[5], fun idx => (idx.sum : ℚ)⟩

/-- A concrete `[2, 10]` trial tensor (the spec's TemporalPadding example). -/
def tpInput : Mat := ⟨2, 10, fun i k => (i : ℚ) + (k : ℚ)⟩

/-- A concrete `[2, 100]` trial tensor (the spec's CropAndResample example). -/
def carInput : Mat := ⟨2, 100, fun i k => (i : ℚ) + (k : ℚ)⟩

/-- The spec's CropAndResample example configuration:
`target=40, stdev=2, truncate=5`. -/
def carT : CropAndResample := ⟨40, 2, some 5⟩

/-! Claim theorems. -/

/-- C1: the shape-propagation/data-propagation consistency fails on
`CropAndResample`: constructed with `desired_sequence_length = 40` and applied
to a `[2, 100]` tensor (with an immediately accepted truncated-normal draw of
40), `__call__` returns a tensor with 40 samples, while the overridden
`new_sequence_length` applied to 100 predicts 100, not 40.  The override
returns its argument unchanged, contradicting the base-class shape contract
and the spec's `samples → target` entry, so the code is in error. -/
theorem cropAndResample_shape_propagation_mismatch :
    (CropAndResample.call carT (fun _ => 40) 1 carInput).map (Option.map Mat.cols) =
      .ok (some 40) ∧
    CropAndResample.newSeqLen carT 100 = 100 ∧ (40 : ℕ) ≠ 100 := by
  refine ⟨?_, rfl, by decide⟩
  simp [CropAndResample.call, CropAndResample.maxDiff, carT, carInput, trunc_norm_fuel,
    Mat.cropColsZ, interpolate_nearest, Except.map]
  norm_num

/-- C2: the rejection loop of `CropAndResample.trunc_norm` has no bound on the
number of rejected attempts: with `mean = 40` and `max_diff = 5` (the spec's
`target=40, stdev=2, truncate=5` example, where the acceptance region is not
even degenerate), the realizable draw stream that keeps producing 100 is
rejected forever — for every attempt bound the loop has still not accepted,
so termination is only almost-sure, not bounded, and no configuration error
is raised. -/
theorem trunc_norm_no_attempt_bound (fuel : ℕ) :
    trunc_norm_fuel (fun _ => 100) 40 5 fuel = none := by
  induction fuel with
  | zero => rfl
  | succ n ih =>
    have hstep : trunc_norm_fuel (fun _ => (100 : ℤ)) 40 5 (n + 1) =
        trunc_norm_fuel (fun _ => 100) 40 5 n := by
      simp only [trunc_norm_fuel]
      norm_num
    rw [hstep]
    exact ih

/-- C3: `FixedScale.__call__` never rescales anything: it calls the
one-parameter `min_max_normalize` with three positional arguments
(`min_max_normalize(x, self.low_bound, self.high_bound)`), so Python raises
TypeError for every input instead of returning a tensor in
`[low_bound, high_bound]`, contradicting the class's own docstring. -/
theorem fixedScale_always_raises :
    FixedScale.call ⟨-1, 1⟩ fsInput = .error "TypeError" ∧
    min_max_normalize_nparams = 1 :=
  ⟨fixedScale_call_eq _ _, rfl⟩

/-- C4: `TemporalPadding(start_padding=3, end_padding=2)` on a `[2, 10]`
tensor does not produce a `[2, 15]` tensor: the source builds the pad list
from the sample count (`[3, 2] + [0] * (x.shape[-1] - 2)`, length 10), which
exceeds twice the tensor rank, so `torch.nn.functional.pad` raises — even
though `new_sequence_length(10) = 15` as the claim predicts. -/
theorem temporalPadding_errors_on_rank2 :
    TemporalPadding.call ⟨3, 2, 0⟩ tpInput = .error "Padding length too large" ∧
    TemporalPadding.new_sequence_length ⟨3, 2, 0⟩ 10 = 15 := by
  constructor
  · rfl
  · rfl

/-- C5: on a constant input (the all-ones 2-by-2 tensor, so `max == min` and
`std == 0`), neither `min_max_normalize` nor `ZScore` passes through as zero:
every entry of the min-max result and every entry of the z-score result is
the NaN produced by the 0/0 division, contradicting the spec's required
zero-dynamic-range policy. -/
theorem constant_input_propagates_nan :
    (min_max_normalize constTens).map (fun y => y.entry [0, 0]) = some .nan ∧
    (min_max_normalize constTens).map (fun y => y.entry [0, 1]) = some .nan ∧
    (min_max_normalize constTens).map (fun y => y.entry [1, 0]) = some .nan ∧
    (min_max_normalize constTens).map (fun y => y.entry [1, 1]) = some .nan ∧
    (zscore constTens).entry [0, 0] = .nan ∧
    (zscore constTens).entry [1, 1] = .nan := by
  have hmm : ∀ idx : List ℕ,
      (min_max_normalize constTens).map (fun y => y.entry idx) = some .nan := by
    intro idx
    norm_num [min_max_normalize, constTens, PyTensor.minQ, PyTensor.maxQ,
      PyTensor.entries, allIndices, List.range_succ, fdiv]
  have hvar : constTens.varQ = 0 := by
    norm_num [PyTensor.varQ, PyTensor.meanQ, PyTensor.sumQ, PyTensor.numel,
      PyTensor.entries, constTens, allIndices, List.range_succ]
  have hsq : fsqrt constTens.varQ = .fin 0 := by
    rw [hvar]; norm_num [fsqrt, ratSqrt]
  have hmean : constTens.meanQ = 1 := by
    norm_num [PyTensor.meanQ, PyTensor.sumQ, PyTensor.numel, PyTensor.entries, constTens,
      allIndices, List.range_succ]
  have hz : ∀ idx : List ℕ, (zscore constTens).entry idx = .nan := by
    intro idx
    have hentry : constTens.entry idx = 1 := rfl
    simp only [zscore, hsq, hentry, hmean]
    norm_num [fdiv]
  exact ⟨hmm _, hmm _, hmm _, hmm _, hz _, hz _⟩

/-- C6: under the spec's scheme invariants (`wf`), for every channel mapping,
every input tensor and every dataset scale with positive dynamic range, each
canonical row other than the scale indicator whose mapping column has no
contributing source channel is all zero in the output of
`MappingDeep1010.__call__`, the scale-indicator row holds the computed scale,
and that scale is a finite value in `[-1, 1]`.  (The claim's first clause can
only be read as excluding the scale-indicator slot, whose written value its
second clause describes.) -/
theorem mappingDeep1010_unused_zero_scale_unit (sch : Deep1010Scheme)
    (mapping : ℕ → ℕ → ℚ) (max_scale : Option ℚ) (x : Mat) (j : ℕ)
    (hwf : sch.wf) (hms : ∀ ms, max_scale = some ms → 0 < ms)
    (hj : j ≠ sch.scaleInd) (hcol : ∀ i, i < x.rows → mapping i j = 0) :
    (∀ k, (mappingDeep1010_call sch mapping max_scale x).entry j k = .fin 0) ∧
    (∀ k, (mappingDeep1010_call sch mapping max_scale x).entry sch.scaleInd k =
      mappingScale max_scale x) ∧
    FVal.memUnit (mappingScale max_scale x) = true := by
  refine ⟨?_, ?_, ?_⟩
  · intro k
    have hsum : colSum mapping x.rows j = 0 := by
      apply List.sum_eq_zero
      intro v hv
      simp only [List.mem_map, List.mem_range] at hv
      obtain ⟨i, hi, rfl⟩ := hv
      exact hcol i hi
    simp [mappingDeep1010_call, hj, hsum]
  · intro k
    simp [mappingDeep1010_call]
  · cases hmaxs : max_scale with
    | none => simp [mappingScale, FVal.memUnit]
    | some ms =>
      have hpos := hms ms hmaxs
      have hd : x.minQ ≤ x.maxQ := Mat.minQ_le_maxQ x
      have hfd : fdiv (x.maxQ - x.minQ) ms = .fin ((x.maxQ - x.minQ) / ms) := by
        simp [fdiv, ne_of_gt hpos]
      have hr : 0 ≤ (x.maxQ - x.minQ) / ms := div_nonneg (by linarith) (le_of_lt hpos)
      have hlo : (0 : ℚ) ≤ min ((x.maxQ - x.minQ) / ms) 1 := le_min hr (by norm_num)
      have hhi : min ((x.maxQ - x.minQ) / ms) 1 ≤ 1 := min_le_right _ _
      simp only [mappingScale, hfd, fclampMax, fsubQ, fmulPos, FVal.memUnit,
        decide_eq_true_eq]
      constructor
      · linarith
      · linarith

/-- A toy canonical scheme in the shape of the spec's end-to-end scenario:
three EEG slots, one EOG slot, a scale-indicator slot. -/
def toySch : Deep1010Scheme := ⟨5, [0, 1, 2], [3], [], [], 4⟩

/-- A toy channel mapping: source channels 0, 1, 2 map to canonical slots
0, 1, 3; canonical slots 2 (EEG) and 4 (scale) have no contributor. -/
def toyMapping : ℕ → ℕ → ℚ := fun i j =>
  if (i, j) ∈ [((0 : ℕ), (0 : ℕ)), (1, 1), (2, 3)] then 1 else 0

/-- A concrete `[3, 2]` input tensor for the mapping transform. -/
def toyX : Mat := ⟨3, 2, fun i k => (i : ℚ) + (k : ℚ)⟩

/-- Witness for C6: the toy scheme satisfies the invariants and the theorem
applies at canonical slot 2 (an unused EEG slot) with dataset scale 10. -/
theorem mappingDeep1010_unused_zero_scale_unit_witness :
    toySch.wf ∧ (0 : ℚ) < 10 ∧ (2 : ℕ) ≠ toySch.scaleInd ∧
    (mappingDeep1010_call toySch toyMapping (some 10) toyX).entry 2 0 = .fin 0 ∧
    (mappingDeep1010_call toySch toyMapping (some 10) toyX).entry 2 1 = .fin 0 ∧
    (mappingDeep1010_call toySch toyMapping (some 10) toyX).entry toySch.scaleInd 0 =
      mappingScale (some 10) toyX ∧
    FVal.memUnit (mappingScale (some 10) toyX) = true := by
  have hwf : toySch.wf := by
    refine ⟨?_, ?_, ?_, ?_, ?_, ?_, ?_, ?_, ?_, ?_⟩ <;>
      simp [toySch, List.Disjoint]
  have hms : ∀ ms : ℚ, (some (10 : ℚ) : Option ℚ) = some ms → 0 < ms := by
    intro ms h
    cases h
    norm_num
  have hj : (2 : ℕ) ≠ toySch.scaleInd := by decide
  have hcol : ∀ i, i < toyX.rows → toyMapping i 2 = 0 := by
    intro i hi
    have hi3 : i < 3 := hi
    interval_cases i <;> rfl
  have h := mappingDeep1010_unused_zero_scale_unit toySch toyMapping (some 10) toyX 2
    hwf hms hj hcol
  exact ⟨hwf, by norm_num, hj, h.1 0, h.1 1, h.2.1 0, h.2.2⟩

/-- A concrete `[4, 1]` tensor for the AdditiveEog counterexample: EEG row 0
holds 5, the EOG row 3 holds 2. -/
def aeX : Mat := ⟨4, 1, fun i _ => if i = 0 then 5 else if i = 3 then 2 else 0⟩

/-- AdditiveEog configuration `p=1/2, max_intensity=1/2, blank_eog_p=1`. -/
def aeT : AdditiveEogDeep1010 := ⟨1 / 2, 1 / 2, 1⟩

/-- Draw stream for the affected-row selection: row 0 selected, row 1 not. -/
def aeR1 : ℕ → ℚ := fun i => if i = 0 then 0 else 1

/-- Draw stream for the per-EOG sub-selection: keep every affected row. -/
def aeR2 : ℕ → ℕ → ℚ := fun _ _ => 0

/-- Draw stream for the per-row mixing coefficients: always 1. -/
def aeR3 : ℕ → ℕ → ℚ := fun _ _ => 1

/-- Draw stream for the blanking decision. -/
def aeRb : ℕ → ℚ := fun _ => 0

/-- The output of `AdditiveEogDeep1010.__call__` on the counterexample
input, with EOG slot list `[3]`. -/
def aeOut : Mat := AdditiveEogDeep1010.call aeT [3] aeR1 aeR2 aeR3 aeRb aeX

/-- C7 counterexample: on the concrete input `aeX` with the draws above, the
selected EEG row 0 ends up holding exactly the scaled EOG signal
`max_intensity * 1 * x[3]` (that is, 1), not its old value plus that signal
(which would be 6): the source assigns `x[ids, :] = intensity * x[which_eog]`
rather than adding to it, so the claim's additive reading is false. -/
theorem additiveEog_not_additive :
    aeOut.entry 0 0 = aeT.max_intensity * 1 * aeX.entry 3 0 ∧
    aeOut.entry 0 0 ≠ aeX.entry 0 0 + aeT.max_intensity * 1 * aeX.entry 3 0 := by
  have hout : aeOut.entry 0 0 = 1 := by
    norm_num [aeOut, AdditiveEogDeep1010.call, additiveEogStep, additiveEogAffected,
      additiveEogIds, aeT, aeX, aeR1, aeR2, aeR3, aeRb, List.enum, List.enumFrom,
      List.range_succ, Mat.setRowConst, List.indexOf, List.findIdx, List.findIdx.go]
  constructor
  · rw [hout]
    norm_num [aeT, aeX]
  · rw [hout]
    norm_num [aeT, aeX]

/-- C7 amended: for a single-slot EOG list `[e]`, every EEG row selected by
the two-stage random selection is overwritten with (not added to) the scaled
EOG signal — its new value is `max_intensity` times its positional random
coefficient times the EOG row's old value — and, independently, when the
blanking condition `blank_eog_p != 0 and (blank_eog_p == 1 or rand < blank_eog_p)`
holds, the EOG row is zeroed afterward. -/
theorem additiveEog_overwrites_scaled_eog (t : AdditiveEogDeep1010) (e : ℕ)
    (r1 : ℕ → ℚ) (r2 r3 : ℕ → ℕ → ℚ) (rb : ℕ → ℚ) (x : Mat) (i k : ℕ)
    (hi : i ∈ additiveEogIds (additiveEogAffected t.p e r1) (r2 0))
    (hie : i ≠ e) :
    (AdditiveEogDeep1010.call t [e] r1 r2 r3 rb x).entry i k =
      t.max_intensity *
        r3 0 ((additiveEogIds (additiveEogAffected t.p e r1) (r2 0)).indexOf i) *
        x.entry e k ∧
    ((t.blank_eog_p ≠ 0 ∧ (t.blank_eog_p = 1 ∨ rb 0 < t.blank_eog_p)) →
      (AdditiveEogDeep1010.call t [e] r1 r2 r3 rb x).entry e k = 0) := by
  have hcall : AdditiveEogDeep1010.call t [e] r1 r2 r3 rb x =
      additiveEogStep t.max_intensity t.blank_eog_p (r2 0) (r3 0) (rb 0)
        (additiveEogAffected t.p e r1) x e := by
    simp [AdditiveEogDeep1010.call, List.enum, List.enumFrom]
  rw [hcall]
  constructor
  · by_cases hb : t.blank_eog_p ≠ 0 ∧ (t.blank_eog_p = 1 ∨ rb 0 < t.blank_eog_p)
    · simp [additiveEogStep, hb, Mat.setRowConst, hie, hi]
    · simp [additiveEogStep, hb, hi]
  · intro hb
    simp [additiveEogStep, hb, Mat.setRowConst]

/-- A concrete `[5, 2]` tensor for the amended-C7 witness. -/
def awX : Mat := ⟨5, 2, fun i k => (i : ℚ) * 10 + (k : ℚ)⟩

/-- AdditiveEog configuration `p=1, max_intensity=1/3, blank_eog_p=1`. -/
def awT : AdditiveEogDeep1010 := ⟨1, 1 / 3, 1⟩

/-- Draw streams selecting every candidate row, keeping all of them, with
positional coefficients `pos + 1`. -/
def awR1 : ℕ → ℚ := fun _ => 0

/-- Sub-selection draws: keep every affected row. -/
def awR2 : ℕ → ℕ → ℚ := fun _ _ => 0

/-- Mixing-coefficient draws: position `pos` gets `pos + 1`. -/
def awR3 : ℕ → ℕ → ℚ := fun _ pos => (pos : ℚ) + 1

/-- Blanking draws. -/
def awRb : ℕ → ℚ := fun _ => 0

/-- Witness for the amended C7 theorem: with EOG slot 4, row 1 is selected
(the selected rows are `[0, 1, 2]`), ends up holding
`(1/3) * 2 * x[4]` at sample 0, and the EOG row 4 is blanked to 0. -/
theorem additiveEog_overwrites_scaled_eog_witness :
    (1 ∈ additiveEogIds (additiveEogAffected awT.p 4 awR1) (awR2 0)) ∧ (1 : ℕ) ≠ 4 ∧
    (AdditiveEogDeep1010.call awT [4] awR1 awR2 awR3 awRb awX).entry 1 0 =
      awT.max_intensity *
        awR3 0 ((additiveEogIds (additiveEogAffected awT.p 4 awR1) (awR2 0)).indexOf 1) *
        awX.entry 4 0 ∧
    (AdditiveEogDeep1010.call awT [4] awR1 awR2 awR3 awRb awX).entry 4 0 = 0 := by
  have hi : (1 : ℕ) ∈ additiveEogIds (additiveEogAffected awT.p 4 awR1) (awR2 0) := by
    norm_num [additiveEogIds, additiveEogAffected, awT, awR1, awR2, List.range_succ,
      List.enum, List.enumFrom]
  have h := additiveEog_overwrites_scaled_eog awT 4 awR1 awR2 awR3 awRb awX 1 0 hi
    (by decide)
  exact ⟨hi, by decide, h.1, h.2 ⟨by norm_num [awT], Or.inl rfl⟩⟩

/-- C8 counterexample: for a `[C, 5]` tensor and `crop_sequence_min = 2`, the
crop length is drawn by `np.random.randint(low=2, high=5)`, whose upper bound
is exclusive: no draw whatsoever yields the full length 5, so the claim that
every length of the closed interval `[min, s]` — including `s` itself — has
positive probability is false. -/
theorem cropAndUpSample_full_length_impossible :
    ¬ ∃ d : ℕ, np_randint 2 5 d = .ok 5 := by
  rintro ⟨d, hd⟩
  have h3 : d % 3 < 3 := Nat.mod_lt _ (by norm_num)
  simp only [np_randint, if_neg (by norm_num : ¬ (5 ≤ 2)), Except.ok.injEq] at hd
  omega

/-- The value produced by `np.random.randint(low, high)` for a given draw. -/
def npRandintVal (low high draw : ℕ) : ℕ := low + draw % (high - low)

/-- C8 amended: `CropAndUpSample` draws its crop length uniformly from the
half-open interval `[crop_sequence_min, s)` — every such length is reached by
some draw, every draw lands in that range, and `s` itself is excluded — crops
from the start, and interpolates back to the construction-time original
length, so the output sample count equals `original_sequence_length`. -/
theorem cropAndUpSample_halfopen_support (t : CropAndUpSample) (x : Mat) (d : ℕ)
    (h : t.crop_sequence_min < x.cols) :
    (np_randint t.crop_sequence_min x.cols d =
        .ok (npRandintVal t.crop_sequence_min x.cols d) ∧
      t.crop_sequence_min ≤ npRandintVal t.crop_sequence_min x.cols d ∧
      npRandintVal t.crop_sequence_min x.cols d < x.cols) ∧
    (∀ len, t.crop_sequence_min ≤ len → len < x.cols →
      ∃ d' : ℕ, np_randint t.crop_sequence_min x.cols d' = .ok len) ∧
    (CropAndUpSample.call t d x).map Mat.cols = .ok t.original_sequence_length := by
  have hnle : ¬ (x.cols ≤ t.crop_sequence_min) := Nat.not_le.mpr h
  have hmod : ∀ d' : ℕ, d' % (x.cols - t.crop_sequence_min) < x.cols - t.crop_sequence_min :=
    fun d' => Nat.mod_lt _ (by omega)
  refine ⟨⟨?_, ?_, ?_⟩, ?_, ?_⟩
  · simp [np_randint, hnle, npRandintVal]
  · simp [npRandintVal]
  · have := hmod d
    simp only [npRandintVal]
    omega
  · intro len hlo hhi
    refine ⟨len - t.crop_sequence_min, ?_⟩
    simp only [np_randint, if_neg hnle, Except.ok.injEq]
    rw [Nat.mod_eq_of_lt (by omega)]
    omega
  · simp [CropAndUpSample.call, np_randint, hnle, interpolate_nearest, Except.map,
      Except.bind, bind, pure, Except.pure]

/-- A concrete `[2, 5]` tensor for the C8 witness. -/
def cusX : Mat := ⟨2, 5, fun i k => (i : ℚ) - (k : ℚ)⟩

/-- Witness for the amended C8 theorem: `CropAndUpSample(original=7, min=2)`
on the `[2, 5]` tensor with draw 0 yields a tensor with 7 samples. -/
theorem cropAndUpSample_halfopen_support_witness :
    (2 : ℕ) < cusX.cols ∧
    (CropAndUpSample.call ⟨7, 2⟩ 0 cusX).map Mat.cols = .ok 7 :=
  ⟨by decide, (cropAndUpSample_halfopen_support ⟨7, 2⟩ cusX 0 (by decide)).2.2⟩

/-- C9: for every tensor whose rank is neither 2 nor 3, `min_max_normalize`
falls through both branches and returns Python `None` (no tensor, no explicit
shape error); and `FixedScale` produces no tensor output for such inputs —
its call raises TypeError (for every input, in fact, because it passes three
positional arguments to the one-parameter `min_max_normalize`). -/
theorem minmax_rank_fallthrough (x : PyTensor)
    (h2 : x.shape.length ≠ 2) (h3 : x.shape.length ≠ 3) :
    min_max_normalize x = none ∧
    ∀ t : FixedScale, FixedScale.call t x = .error "TypeError" := by
  refine ⟨?_, fun t => fixedScale_call_eq t x⟩
  simp [min_max_normalize, h2, h3]

/-- Witness for C9 at the concrete rank-1 tensor of shape `[5]`. -/
theorem minmax_rank_fallthrough_witness :
    rank1Tens.shape.length ≠ 2 ∧ rank1Tens.shape.length ≠ 3 ∧
    min_max_normalize rank1Tens = none ∧
    FixedScale.call ⟨0, 1⟩ rank1Tens = .error "TypeError" := by
  have h2 : rank1Tens.shape.length ≠ 2 := by decide
  have h3 : rank1Tens.shape.length ≠ 3 := by decide
  exact ⟨h2, h3, (minmax_rank_fallthrough rank1Tens h2 h3).1,
    (minmax_rank_fallthrough rank1Tens h2 h3).2 _⟩

lemma get_q_set_zero_ne {α : Type} (l : List α) (v : α) (i : ℕ) (hi : i ≠ 0) :
    (l.set 0 v).get? i = l.get? i := by
  cases l with
  | nil => rfl
  | cons a t =>
    cases i with
    | zero => exact absurd rfl hi
    | succ n => rfl

/-- C10: when `NoisyBlankDeep1010` is constructed with `purge_mask=True`, its
`__call__` on a tuple whose head is the trial tensor and whose
`mask_index`-th element is the mask returns the value of
`x.pop(self.mask_index)` — Python's `list.pop` returns the removed element,
so the result is the mask element itself, not the remaining tuple; the
noised tensor and the other auxiliary values are not part of the returned
value. -/
theorem noisyBlank_purge_returns_mask (t : NoisyBlankDeep1010) (noise : ℕ → ℕ → ℚ)
    (vals : List PyVal) (m : Mat) (len : ℕ) (b : ℕ → Bool)
    (hp : t.purge_mask = true) (hlen : 1 < vals.length) (hmi : t.mask_index ≠ 0)
    (h0 : vals.head? = some (.tensor m))
    (hm : vals.get? t.mask_index = some (.chmask len b)) :
    NoisyBlankDeep1010.call t noise vals = .ok (.single (.chmask len b)) := by
  unfold NoisyBlankDeep1010.call
  rw [if_neg (Nat.not_le.mpr hlen), h0, hm]
  simp only [hp, if_true]
  rw [get_q_set_zero_ne vals _ t.mask_index hmi, hm]

/-- A concrete trial tensor for the C10 witness. -/
def nbTensor : Mat := ⟨3, 2, fun i k => (i : ℚ) + (k : ℚ)⟩

/-- A concrete channel mask (only row 0 in use). -/
def nbMaskFn : ℕ → Bool := fun i => i = 0

/-- The per-instance tuple `(tensor, mask)` for the C10 witness. -/
def nbVals : List PyVal := [.tensor nbTensor, .chmask 3 nbMaskFn]

/-- Witness for C10: with `mask_index=1, purge_mask=True` on the concrete
tuple, the call returns exactly the mask element. -/
theorem noisyBlank_purge_returns_mask_witness :
    (⟨1, true⟩ : NoisyBlankDeep1010).purge_mask = true ∧ 1 < nbVals.length ∧
    (⟨1, true⟩ : NoisyBlankDeep1010).mask_index ≠ 0 ∧
    NoisyBlankDeep1010.call ⟨1, true⟩ (fun _ _ => 0) nbVals =
      .ok (.single (.chmask 3 nbMaskFn)) :=
  ⟨rfl, by decide, by decide,
    noisyBlank_purge_returns_mask ⟨1, true⟩ (fun _ _ => 0) nbVals nbTensor 3 nbMaskFn
      rfl (by decide) (by decide) rfl rfl⟩

end DN4
